import Mathlib

/-!
Shallow embedding of the Codenames engine (`src/codenames/game.py`) and the
debate/consensus mechanism (`src/decision_mechanisms.py`), with theorems
checking the natural-language specification against the code.

Embedding conventions:
* Python `int` is modelled as `Int` where a value is decremented
  (`red_remaining`, `blue_remaining`) and as `Nat` where it only grows
  (`turn_count`, counts of lists).
* Python dicts returned from functions are modelled as structures whose
  conditionally-present keys are `Option` fields.
* `str.lower()` is modelled by `pyLower` (per-character `Char.toLower`).
* The `isinstance` shape checks of `validate_clue` are statically guaranteed
  by Lean's types and therefore have no counterpart here.
* The engine's game registry (`self.games`) is not modelled: every operation
  takes the `GameState` of an existing game directly, which is exactly the
  state the Python methods fetch with `self.games.get(game_id)`.
-/

namespace Codenames

/-- `CardType` enum of `game.py`. -/
inductive CardType where
  | RED
  | BLUE
  | NEUTRAL
  | ASSASSIN
  | UNKNOWN
deriving DecidableEq, Repr

/-- `CardType.value`: the string payload of each enum member. -/
def CardType.value : CardType → String
  | .RED => "red"
  | .BLUE => "blue"
  | .NEUTRAL => "neutral"
  | .ASSASSIN => "assassin"
  | .UNKNOWN => "unknown"

/-- `Card` dataclass of `game.py`. -/
structure Card where
  word : String
  type : CardType
  revealed : Bool := false
deriving DecidableEq, Repr

/-- `GameState` dataclass of `game.py`.  `clue_history` entries are the
4-tuples `(team, clue_word, len(selected_cards), selected_cards)` that
`process_clue` actually appends; `guess_history` entries are the
`(team, word, correct_guess)` tuples appended by `process_guess`. -/
structure GameState where
  game_id : String
  board : List Card
  red_remaining : Int
  blue_remaining : Int
  current_team : CardType
  winner : Option CardType := none
  turn_count : Nat := 0
  clue_history : List (CardType × String × Nat × List String) := []
  guess_history : List (CardType × String × Bool) := []
  random_seed : Option Int := none
deriving DecidableEq, Repr

/-- Python `str.lower()`: per-character lowercasing (`Char.toLower`, as in
`String.toLower`), written over the character list so that it evaluates by
structural recursion. -/
def pyLower (s : String) : String :=
  String.mk (s.data.map Char.toLower)

/-- The expression `CardType.RED if x == CardType.BLUE else CardType.BLUE`
used both for the assassin winner and for flipping `current_team`. -/
def otherTeam (t : CardType) : CardType :=
  if t = CardType.BLUE then CardType.RED else CardType.BLUE

/-- `first_team_count` in `create_game`. -/
def first_team_count : Nat := 9

/-- `second_team_count` in `create_game`. -/
def second_team_count : Nat := 8

/-- The `card_types` list built in `create_game` before shuffling. -/
def cardTypesList (first_team : CardType) : List CardType :=
  List.replicate (if first_team = CardType.RED then first_team_count else second_team_count)
      CardType.RED ++
    List.replicate (if first_team = CardType.BLUE then first_team_count else second_team_count)
      CardType.BLUE ++
    List.replicate 7 CardType.NEUTRAL ++
    [CardType.ASSASSIN]

/-- `GameEngine.create_game`, with the three calls into the local
random generator replaced by explicit arguments: `words` stands for
`local_random.sample(self.word_list, 25)` (25 distinct words whenever the
corpus holds at least 25 distinct entries), `first_team` for
`local_random.choice([CardType.RED, CardType.BLUE])`, and `card_types` for
the result of `local_random.shuffle` on `cardTypesList first_team` (a
permutation of it).  The board loop `for i in range(25)` indexes both lists;
`getD` stands for the indexing, which never falls back to its default under
the length facts above. -/
def createGame (game_id : String) (words : List String) (first_team : CardType)
    (card_types : List CardType) (seed : Int) : GameState :=
  { game_id := game_id
    board := (List.range 25).map fun i =>
      { word := words.getD i "", type := card_types.getD i CardType.UNKNOWN }
    red_remaining :=
      if first_team = CardType.RED then (first_team_count : Int) else (second_team_count : Int)
    blue_remaining :=
      if first_team = CardType.BLUE then (first_team_count : Int) else (second_team_count : Int)
    current_team := first_team
    random_seed := some seed }

/-- Result dictionary of `validate_clue`. -/
structure ValidationResult where
  is_valid : Bool
  error : Option String
deriving DecidableEq, Repr

/-- Python `str.split()` with no argument: split on whitespace and drop the
empty pieces (written over the character list so that it evaluates by
structural recursion). -/
def pySplit (s : String) : List String :=
  ((s.data.splitOnP fun c => c.isWhitespace).map String.mk).filter fun p => p ≠ ""

/-- `GameEngine.validate_clue`.  The leading `isinstance` checks are
statically satisfied here; the remaining checks are in the source's order. -/
def validateClue (game : GameState) (clue_word : String) (selected_cards : List String)
    (team : CardType) : ValidationResult :=
  if game.current_team ≠ team then
    { is_valid := false, error := some ("It's not " ++ team.value ++ " team's turn") }
  else
    match game.winner with
    | some w =>
        { is_valid := false, error := some ("Game is already over. Winner: " ++ w.value) }
    | none =>
        if clue_word = "" ∨ 1 < (pySplit clue_word).length then
          { is_valid := false, error := some "Clue must be a single word" }
        else
          let board_words := game.board.map fun c => pyLower c.word
          if pyLower clue_word ∈ board_words then
            { is_valid := false,
              error := some "Clue cannot be a word that appears on the board" }
          else
            match selected_cards.find? (fun cw => ¬ pyLower cw ∈ board_words) with
            | some cw =>
                { is_valid := false,
                  error := some ("Card '" ++ cw ++ "' does not exist on the board") }
            | none =>
                if selected_cards.length ≠ selected_cards.dedup.length then
                  { is_valid := false, error := some "Duplicate cards in selection" }
                else
                  { is_valid := true, error := none }

/-- `GameEngine.process_clue`.  The raised `ValueError` is modelled as the
`Except.error` constructor carrying the validation reason; the returned
state is paired with the outcome. -/
def processClue (game : GameState) (clue_word : String) (selected_cards : List String)
    (team : CardType) : Except String Bool × GameState :=
  let vr := validateClue game clue_word selected_cards team
  if vr.is_valid = false then
    (Except.error (vr.error.getD ""), game)
  else if game.current_team ≠ team ∨ game.winner.isSome then
    (Except.ok false, game)
  else
    (Except.ok true,
      { game with
          clue_history :=
            game.clue_history ++ [(team, clue_word, selected_cards.length, selected_cards)] })

/-- Result dictionary of `process_guess` (`winner` and `card_type` carry the
`.value` strings the code stores). -/
structure GuessResult where
  success : Bool
  error : Option String := none
  card_type : Option String := none
  end_turn : Option Bool := none
  game_over : Option Bool := none
  winner : Option String := none
deriving DecidableEq, Repr

/-- The search-and-mutate loop of `process_guess`: find the first card whose
word matches case-insensitively and is unrevealed, return it together with
the board where that card is now revealed.  `none` means the loop found
nothing, in which case the board is returned unchanged. -/
def revealFirst (guess_word : String) : List Card → Option Card × List Card
  | [] => (none, [])
  | c :: cs =>
      if pyLower c.word = pyLower guess_word ∧ c.revealed = false then
        (some c, { c with revealed := true } :: cs)
      else
        ((revealFirst guess_word cs).1, c :: (revealFirst guess_word cs).2)

/-- The branch of `process_guess` on the revealed card's type: yields the
local `end_turn` flag, the result dictionary and the updated state
(the initial `result` dictionary is `{"success": True, "card_type": ...,
"end_turn": True}`). -/
def guessOutcome (game : GameState) (team : CardType) (card_type : CardType) :
    Bool × GuessResult × GameState :=
  let result : GuessResult :=
    { success := true, card_type := some card_type.value, end_turn := some true }
  match card_type with
  | CardType.ASSASSIN =>
      let w := otherTeam team
      (true,
        { result with game_over := some true, winner := some w.value, end_turn := some true },
        { game with winner := some w })
  | CardType.RED =>
      let game := { game with red_remaining := game.red_remaining - 1 }
      let step :=
        if game.red_remaining = 0 then
          ({ result with game_over := some true, winner := some CardType.RED.value },
            { game with winner := some CardType.RED })
        else
          (result, game)
      let et := decide (team ≠ CardType.RED)
      (et, { step.1 with end_turn := some et }, step.2)
  | CardType.BLUE =>
      let game := { game with blue_remaining := game.blue_remaining - 1 }
      let step :=
        if game.blue_remaining = 0 then
          ({ result with game_over := some true, winner := some CardType.BLUE.value },
            { game with winner := some CardType.BLUE })
        else
          (result, game)
      let et := decide (team ≠ CardType.BLUE)
      (et, { step.1 with end_turn := some et }, step.2)
  | _ => (true, result, game)

/-- `GameEngine.process_guess`. -/
def processGuess (game : GameState) (guess_word : String) (team : CardType) :
    Option GuessResult × GameState :=
  if game.current_team ≠ team ∨ game.winner.isSome then
    (none, game)
  else
    match revealFirst guess_word game.board with
    | (none, _) =>
        (some { success := false, error := some "Card not found or already revealed" }, game)
    | (some card, board2) =>
        let game := { game with board := board2 }
        let out := guessOutcome game team card.type
        let end_turn := out.1
        let result := out.2.1
        let game := out.2.2
        let correct_guess :=
          decide ((team = CardType.RED ∧ card.type = CardType.RED) ∨
            (team = CardType.BLUE ∧ card.type = CardType.BLUE))
        let game :=
          { game with guess_history := game.guess_history ++ [(team, guess_word, correct_guess)] }
        let game :=
          if end_turn then
            { game with
                turn_count := game.turn_count + 1
                current_team := otherTeam game.current_team }
          else
            game
        (some result, game)

/-- `GameEngine.end_turn`. -/
def endTurn (game : GameState) (team : CardType) : Bool × GameState :=
  if game.current_team ≠ team ∨ game.winner.isSome then
    (false, game)
  else
    (true,
      { game with
          turn_count := game.turn_count + 1
          current_team := otherTeam game.current_team })

/-- One call of an engine mutator, relating a game state to the state after
the call (`process_clue`, `process_guess` or `end_turn`, any arguments). -/
inductive EngineStep : GameState → GameState → Prop where
  | clue (g : GameState) (w : String) (cs : List String) (t : CardType) :
      EngineStep g (processClue g w cs t).2
  | guess (g : GameState) (w : String) (t : CardType) :
      EngineStep g (processGuess g w t).2
  | turn (g : GameState) (t : CardType) :
      EngineStep g (endTurn g t).2

/-- Any finite sequence of engine calls. -/
def EngineSteps : GameState → GameState → Prop :=
  Relation.ReflTransGen EngineStep

/-- Number of unrevealed cards of kind `k` on a board. -/
def unrevealedCount (board : List Card) (k : CardType) : Nat :=
  board.countP fun c => decide (c.type = k) && !c.revealed

/-- Number of cards of kind `k` on a board, revealed or not. -/
def typeCount (board : List Card) (k : CardType) : Nat :=
  board.countP fun c => decide (c.type = k)

/-- The counting invariant of the engine: each remaining counter equals the
number of unrevealed cards of its colour, and each colour has at most 9
cards on the board. -/
def CountInvariant (g : GameState) : Prop :=
  g.red_remaining = (unrevealedCount g.board CardType.RED : Int) ∧
  g.blue_remaining = (unrevealedCount g.board CardType.BLUE : Int) ∧
  typeCount g.board CardType.RED ≤ 9 ∧
  typeCount g.board CardType.BLUE ≤ 9

/-- All states reachable from `create_game` by engine calls. -/
inductive Reachable : GameState → Prop where
  | create (game_id : String) (words : List String) (first_team : CardType)
      (card_types : List CardType) (seed : Int)
      (hft : first_team = CardType.RED ∨ first_team = CardType.BLUE)
      (hperm : card_types.Perm (cardTypesList first_team)) :
      Reachable (createGame game_id words first_team card_types seed)
  | step {g g2 : GameState} : Reachable g → EngineStep g g2 → Reachable g2

/-- A finished game (RED already won; it is BLUE's turn bookkeeping-wise). -/
def gOverEx : GameState :=
  { game_id := "g1"
    board := [{ word := "apple", type := CardType.RED, revealed := true }]
    red_remaining := 0
    blue_remaining := 8
    current_team := CardType.BLUE
    winner := some CardType.RED }

/-- A running game whose board holds an unrevealed assassin card. -/
def gAssassinEx : GameState :=
  { game_id := "g2"
    board := [{ word := "night", type := CardType.ASSASSIN },
              { word := "day", type := CardType.RED }]
    red_remaining := 1
    blue_remaining := 1
    current_team := CardType.RED }

/-- A running game where RED is to act; `day` is RED's card, `sun` BLUE's. -/
def gRedEx : GameState :=
  { game_id := "g3"
    board := [{ word := "day", type := CardType.RED },
              { word := "sun", type := CardType.BLUE },
              { word := "sea", type := CardType.BLUE }]
    red_remaining := 1
    blue_remaining := 2
    current_team := CardType.RED }

/-- A running game where RED has two cards left, so revealing one of its own
cards keeps its count positive. -/
def gRed2Ex : GameState :=
  { game_id := "g4"
    board := [{ word := "day", type := CardType.RED },
              { word := "rock", type := CardType.RED },
              { word := "sun", type := CardType.BLUE }]
    red_remaining := 2
    blue_remaining := 1
    current_team := CardType.RED }

/-- 25 distinct one-letter words, standing for a sampled word list. -/
def wordsEx : List String :=
  ["a", "b", "c", "d", "e", "f", "g", "h", "i", "j", "k", "l", "m",
   "n", "o", "p", "q", "r", "s", "t", "u", "v", "w", "x", "y"]

end Codenames

namespace Debate

open Codenames

/-!
Embedding of `DebateManager.run_debate` (`src/decision_mechanisms.py`).

* The operative agents are opaque capability providers (their methods call a
  language model over the network), so an agent is a record of the three
  functions `run_debate` consumes; `previous_guesses` is a list of opaque
  dictionaries that is only forwarded to `generate_guess`, modelled as
  association lists.
* `DebateManager._extract_preference` is regex-based free-text parsing and is
  abstracted as the function argument `extractPref`; the claims quantify over
  it.
* The tie-break calls the *module-global* `random.choice`; that global random
  state is modelled as the function argument `choice`.
* `print` calls and the `proposals` dictionary (used only for printing) have
  no semantic content and are omitted.
-/

/-- An opaque Python dictionary, as forwarded untouched by `run_debate`. -/
abbrev PyDict := List (String × String)

/-- An entry of `debate_log`: `{"round": .., "agent": .., "message": ..,
"guess": ..}` where `guess` is a plain string in round 1 and an
`Optional[str]` afterwards; both are modelled with `Option String`, round 1
always storing `some`. -/
structure DebateEntry where
  round : Nat
  agent : String
  message : String
  guess : Option String
deriving DecidableEq, Repr

/-- An operative agent: the three methods `run_debate` calls on it
(`ai_agents.OperativeAgent.generate_guess`, `.debate_response`,
`.final_vote`), as opaque functions, plus its `name`. -/
structure Agent where
  name : String
  generateGuess : GameState → String → Nat → Nat → List PyDict → String × String
  debateResponse : List DebateEntry → GameState → String → Nat → String
  finalVote : List DebateEntry → List String → GameState → String → Nat → String

/-- Result dictionary of `run_debate`. -/
structure DebateResult where
  debate_log : List DebateEntry
  final_decision : String
  vote_counts : List (String × Nat)
  reasoning : List String

/-- `DebateManager`: its constructor stores only `max_rounds`; in particular
it holds no random source of its own. -/
structure DebateManager where
  max_rounds : Nat := 3
deriving DecidableEq, Repr

/-- Round 1: each agent proposes a guess with reasoning; every proposal is
appended to the log with `"guess": guess`. -/
def round1Log (agents : List Agent) (game_state : GameState) (clue : String) (number : Nat)
    (correct_guesses : Nat) (previous_guesses : List PyDict) : List DebateEntry :=
  agents.map fun agent =>
    let p := agent.generateGuess game_state clue number correct_guesses previous_guesses
    { round := 1
      agent := agent.name
      message := "I suggest we guess '" ++ p.1 ++ "'.\nMy reasoning: " ++ p.2
      guess := some p.1 }

/-- One discussion round (`for agent in agents` inside the
`for round_num in range(2, self.max_rounds + 1)` loop): each agent sees the
log accumulated so far, including entries appended earlier in the same
round. -/
def discussionRound (extractPref : String → GameState → Option String)
    (game_state : GameState) (clue : String) (number : Nat) (round_num : Nat)
    (agents : List Agent) (log : List DebateEntry) : List DebateEntry :=
  agents.foldl
    (fun log agent =>
      let response := agent.debateResponse log game_state clue number
      let current_guess := extractPref response game_state
      log ++ [{ round := round_num, agent := agent.name, message := response,
                guess := current_guess }])
    log

/-- The whole transcript: round 1 followed by discussion rounds
`2 .. max_rounds` (`range(2, max_rounds + 1)`). -/
def debateLog (dm : DebateManager) (extractPref : String → GameState → Option String)
    (agents : List Agent) (game_state : GameState) (clue : String) (number : Nat)
    (correct_guesses : Nat) (previous_guesses : List PyDict) : List DebateEntry :=
  (List.range' 2 (dm.max_rounds - 1)).foldl
    (fun log round_num => discussionRound extractPref game_state clue number round_num agents log)
    (round1Log agents game_state clue number correct_guesses previous_guesses)

/-- The truthy guesses of the log: `if entry.get("guess"):` keeps a guess
that is neither `None` nor the empty string. -/
def collectGuesses (log : List DebateEntry) : List String :=
  (log.filterMap fun e => e.guess.filter fun s => s ≠ "").dedup

/-- `all_guesses.add("end")`: the set already being deduplicated, this adds
`"end"` only when missing. -/
def withEnd (l : List String) : List String :=
  if "end" ∈ l then l else l ++ ["end"]

/-- Insertion step of a stable ascending string sort. -/
def insertSorted (s : String) : List String → List String
  | [] => [s]
  | x :: xs => if s ≤ x then s :: x :: xs else x :: insertSorted s xs

/-- `sorted(...)` on strings. -/
def sortStrings (l : List String) : List String :=
  l.foldr insertSorted []

/-- `voting_options = sorted(list(all_guesses))` with `"end"` ensured. -/
def votingOptions (log : List DebateEntry) : List String :=
  sortStrings (withEnd (collectGuesses log))

/-- Python dict assignment `d[k] = v`: overwrite in place, keeping the key's
original position, else append. -/
def dictInsert (k v : String) : List (String × String) → List (String × String)
  | [] => [(k, v)]
  | (k', v') :: rest =>
      if k' = k then (k', v) :: rest else (k', v') :: dictInsert k v rest

/-- The `votes` dictionary: `votes[agent.name] = agent.final_vote(...)` over
the agents in order. -/
def votesDict (agents : List Agent) (log : List DebateEntry) (options : List String)
    (game_state : GameState) (clue : String) (number : Nat) : List (String × String) :=
  agents.foldl
    (fun votes agent =>
      dictInsert agent.name (agent.finalVote log options game_state clue number) votes)
    []

/-- One step of `collections.Counter`: bump the count of `x`, first
occurrence fixing the position. -/
def counterAdd (x : String) : List (String × Nat) → List (String × Nat)
  | [] => [(x, 1)]
  | (k, n) :: rest =>
      if k = x then (k, n + 1) :: rest else (k, n) :: counterAdd x rest

/-- `Counter(votes.values())` as a position-stable association list. -/
def counterOf (vals : List String) : List (String × Nat) :=
  vals.foldl (fun c v => counterAdd v c) []

/-- Insertion step of the stable descending-by-count sort behind
`Counter.most_common()`. -/
def insertByCount (x : String × Nat) : List (String × Nat) → List (String × Nat)
  | [] => [x]
  | y :: ys => if y.2 < x.2 then x :: y :: ys else y :: insertByCount x ys

/-- `Counter.most_common()`: entries sorted by count descending, ties kept
in first-insertion order (Python's `sorted` is stable). -/
def mostCommon (c : List (String × Nat)) : List (String × Nat) :=
  c.foldl (fun acc x => insertByCount x acc) []

/-- The final-decision computation on `top_votes`: on a tie for the highest
count, `random.choice` (the `choice` argument) picks among the tied options;
otherwise the top option wins.  An empty `top_votes` would raise
`IndexError` in Python (only possible with an empty agent list); the `""`
branch stands for that crash and is unreachable under the claims'
assumption N ≥ 1. -/
def decideVote (choice : List String → String) (top_votes : List (String × Nat)) : String :=
  match top_votes with
  | t0 :: t1 :: rest =>
      if t0.2 = t1.2 then
        choice (((t0 :: t1 :: rest).filter fun p => p.2 = t0.2).map fun p => p.1)
      else t0.1
  | [t0] => t0.1
  | [] => ""

/-- `DebateManager.run_debate`. -/
def DebateManager.runDebate (dm : DebateManager) (choice : List String → String)
    (extractPref : String → GameState → Option String) (agents : List Agent)
    (game_state : GameState) (clue : String) (number : Nat) (correct_guesses : Nat)
    (previous_guesses : List PyDict) : DebateResult :=
  let log := debateLog dm extractPref agents game_state clue number correct_guesses
    previous_guesses
  let voting_options := votingOptions log
  let votes := votesDict agents log voting_options game_state clue number
  let vote_counter := counterOf (votes.map fun p => p.2)
  let top_votes := mostCommon vote_counter
  let final_decision := decideVote choice top_votes
  let final_reasoning :=
    (log.filter fun e => e.guess = some final_decision).map fun e =>
      e.agent ++ ": " ++ e.message
  { debate_log := log
    final_decision := final_decision
    vote_counts := vote_counter
    reasoning :=
      if final_reasoning.isEmpty then ["No specific reasoning provided"]
      else final_reasoning.take 2 }

/-- One possible global-random-state model: `random.choice` returns the first
element. -/
def choiceHead (l : List String) : String :=
  l.headD ""

/-- Another global-random-state model: `random.choice` returns the last
element. -/
def choiceLast (l : List String) : String :=
  l.getLastD ""

/-- A preference extractor that never extracts anything. -/
def extractNone : String → GameState → Option String :=
  fun _ _ => none

/-- A debate manager limited to one round. -/
def dmEx : DebateManager :=
  { max_rounds := 1 }

/-- A minimal game state for debate runs. -/
def gsEx : GameState :=
  { game_id := "g0"
    board := []
    red_remaining := 0
    blue_remaining := 0
    current_team := CardType.RED }

/-- An agent that proposes `alpha` and votes `alpha`. -/
def agentA : Agent :=
  { name := "A"
    generateGuess := fun _ _ _ _ _ => ("alpha", "r1")
    debateResponse := fun _ _ _ _ => ""
    finalVote := fun _ _ _ _ _ => "alpha" }

/-- An agent that proposes `alpha` but votes `end`. -/
def agentB : Agent :=
  { name := "B"
    generateGuess := fun _ _ _ _ _ => ("alpha", "r2")
    debateResponse := fun _ _ _ _ => ""
    finalVote := fun _ _ _ _ _ => "end" }

/-- An agent that votes for the first offered option. -/
def agentC : Agent :=
  { name := "C"
    generateGuess := fun _ _ _ _ _ => ("alpha", "r3")
    debateResponse := fun _ _ _ _ => ""
    finalVote := fun _ opts _ _ _ => opts.headD "" }

/-- A two-agent team whose final votes tie. -/
def agentsEx : List Agent :=
  [agentA, agentB]

end Debate


namespace Codenames

lemma revealFirst_none_of (w : String) (board : List Card)
    (h : ∀ c ∈ board, pyLower c.word = pyLower w → c.revealed = true) :
    revealFirst w board = (none, board) := by
  induction board with
  | nil => rfl
  | cons c cs ih =>
      have hc : ¬ (pyLower c.word = pyLower w ∧ c.revealed = false) := by
        rintro ⟨h1, h2⟩
        have := h c (List.mem_cons_self c cs) h1
        rw [this] at h2
        exact Bool.noConfusion h2
      rw [revealFirst, if_neg hc, ih fun x hx => h x (List.mem_cons_of_mem c hx)]

lemma revealFirst_some (w : String) (board : List Card) (c : Card) (b2 : List Card)
    (h : revealFirst w board = (some c, b2)) :
    ∃ pre post, board = pre ++ c :: post ∧
      b2 = pre ++ { c with revealed := true } :: post ∧
      c.revealed = false ∧ pyLower c.word = pyLower w := by
  induction board generalizing b2 with
  | nil => simp [revealFirst] at h
  | cons x xs ih =>
      rw [revealFirst] at h
      by_cases hx : pyLower x.word = pyLower w ∧ x.revealed = false
      · rw [if_pos hx] at h
        injection h with h1 h2
        injection h1 with h1
        subst h1
        exact ⟨[], xs, rfl, h2.symm, hx.2, hx.1⟩
      · rw [if_neg hx] at h
        injection h with h1 h2
        obtain ⟨pre, post, hb, hb2, hrev, hw⟩ :=
          ih (revealFirst w xs).2 (by rw [← h1])
        refine ⟨x :: pre, post, ?_, ?_, hrev, hw⟩
        · rw [List.cons_append, ← hb]
        · rw [← h2, List.cons_append, ← hb2]

lemma guessOutcome_end_turn (g : GameState) (t k : CardType) :
    (guessOutcome g t k).2.1.end_turn = some (guessOutcome g t k).1 := by
  cases k <;> rfl

lemma guessOutcome_success (g : GameState) (t k : CardType) :
    (guessOutcome g t k).2.1.success = true := by
  cases k <;> simp only [guessOutcome] <;> try rfl
  all_goals split <;> rfl

lemma guessOutcome_turn_count (g : GameState) (t k : CardType) :
    (guessOutcome g t k).2.2.turn_count = g.turn_count := by
  cases k <;> simp only [guessOutcome] <;> try rfl
  all_goals split <;> rfl

lemma guessOutcome_current_team (g : GameState) (t k : CardType) :
    (guessOutcome g t k).2.2.current_team = g.current_team := by
  cases k <;> simp only [guessOutcome] <;> try rfl
  all_goals split <;> rfl

lemma guessOutcome_board (g : GameState) (t k : CardType) :
    (guessOutcome g t k).2.2.board = g.board := by
  cases k <;> simp only [guessOutcome] <;> try rfl
  all_goals split <;> rfl

lemma guessOutcome_guess_history (g : GameState) (t k : CardType) :
    (guessOutcome g t k).2.2.guess_history = g.guess_history := by
  cases k <;> simp only [guessOutcome] <;> try rfl
  all_goals split <;> rfl

lemma processGuess_reveal (g : GameState) (w : String) (t : CardType) (c : Card)
    (b2 : List Card) (hg : g.current_team = t) (hw : g.winner = none)
    (hr : revealFirst w g.board = (some c, b2)) :
    processGuess g w t =
      (some (guessOutcome { g with board := b2 } t c.type).2.1,
        if (guessOutcome { g with board := b2 } t c.type).1 = true then
          { (guessOutcome { g with board := b2 } t c.type).2.2 with
              guess_history :=
                (guessOutcome { g with board := b2 } t c.type).2.2.guess_history ++
                  [(t, w,
                    decide ((t = CardType.RED ∧ c.type = CardType.RED) ∨
                      (t = CardType.BLUE ∧ c.type = CardType.BLUE)))]
              turn_count := (guessOutcome { g with board := b2 } t c.type).2.2.turn_count + 1
              current_team :=
                otherTeam (guessOutcome { g with board := b2 } t c.type).2.2.current_team }
        else
          { (guessOutcome { g with board := b2 } t c.type).2.2 with
              guess_history :=
                (guessOutcome { g with board := b2 } t c.type).2.2.guess_history ++
                  [(t, w,
                    decide ((t = CardType.RED ∧ c.type = CardType.RED) ∨
                      (t = CardType.BLUE ∧ c.type = CardType.BLUE)))] }) := by
  unfold processGuess
  rw [if_neg (by simp [hg, hw]), hr]

lemma processGuess_gameOver (g : GameState) (w : String) (t : CardType)
    (h : g.winner.isSome) : processGuess g w t = (none, g) := by
  unfold processGuess
  rw [if_pos (Or.inr h)]

lemma endTurn_gameOver (g : GameState) (t : CardType) (h : g.winner.isSome) :
    endTurn g t = (false, g) := by
  unfold endTurn
  rw [if_pos (Or.inr h)]

lemma validateClue_invalid_of_winner (g : GameState) (w : String) (cs : List String)
    (t : CardType) (h : g.winner.isSome) :
    (validateClue g w cs t).is_valid = false ∧ (validateClue g w cs t).error.isSome := by
  obtain ⟨v, hv⟩ := Option.isSome_iff_exists.mp h
  unfold validateClue
  by_cases hg : g.current_team ≠ t
  · rw [if_pos hg]
    exact ⟨rfl, rfl⟩
  · rw [if_neg hg, hv]
    exact ⟨rfl, rfl⟩

lemma processClue_invalid (g : GameState) (w : String) (cs : List String) (t : CardType)
    (h : (validateClue g w cs t).is_valid = false) :
    processClue g w cs t =
      (Except.error ((validateClue g w cs t).error.getD ""), g) := by
  unfold processClue
  rw [if_pos h]

lemma processClue_gameOver (g : GameState) (w : String) (cs : List String) (t : CardType)
    (h : g.winner.isSome) : ∃ e, processClue g w cs t = (Except.error e, g) := by
  obtain ⟨hinv, hsome⟩ := validateClue_invalid_of_winner g w cs t h
  exact ⟨_, processClue_invalid g w cs t hinv⟩

lemma engineStep_gameOver {g g2 : GameState} (h : g.winner.isSome)
    (hs : EngineStep g g2) : g2 = g := by
  cases hs with
  | clue w cs t =>
      obtain ⟨e, he⟩ := processClue_gameOver g w cs t h
      rw [he]
  | guess w t => rw [processGuess_gameOver g w t h]
  | turn t => rw [endTurn_gameOver g t h]

lemma engineSteps_gameOver {g g2 : GameState} (h : g.winner.isSome)
    (hs : EngineSteps g g2) : g2 = g := by
  induction hs with
  | refl => rfl
  | tail hs' hstep ih =>
      rw [ih] at hstep
      exact engineStep_gameOver h hstep

lemma processGuess_guard (g : GameState) (w : String) (t : CardType)
    (h : g.current_team ≠ t ∨ g.winner.isSome) : processGuess g w t = (none, g) := by
  unfold processGuess
  rw [if_pos h]

lemma endTurn_guard (g : GameState) (t : CardType)
    (h : g.current_team ≠ t ∨ g.winner.isSome) : endTurn g t = (false, g) := by
  unfold endTurn
  rw [if_pos h]

lemma processGuess_notFound (g : GameState) (w : String) (t : CardType)
    (hg : g.current_team = t) (hw : g.winner = none)
    (hr : (revealFirst w g.board).1 = none) :
    processGuess g w t =
      (some { success := false, error := some "Card not found or already revealed" }, g) := by
  unfold processGuess
  rw [if_neg (by simp [hg, hw])]
  rcases hrv : revealFirst w g.board with ⟨o, b2⟩
  rw [hrv] at hr
  simp only at hr
  subst hr
  rfl

lemma processGuess_reveal_fst (g : GameState) (w : String) (t : CardType) (c : Card)
    (b2 : List Card) (hg : g.current_team = t) (hw : g.winner = none)
    (hr : revealFirst w g.board = (some c, b2)) :
    (processGuess g w t).1 = some (guessOutcome { g with board := b2 } t c.type).2.1 := by
  rw [processGuess_reveal g w t c b2 hg hw hr]

lemma processGuess_reveal_winner (g : GameState) (w : String) (t : CardType) (c : Card)
    (b2 : List Card) (hg : g.current_team = t) (hw : g.winner = none)
    (hr : revealFirst w g.board = (some c, b2)) :
    (processGuess g w t).2.winner = (guessOutcome { g with board := b2 } t c.type).2.2.winner := by
  rw [processGuess_reveal g w t c b2 hg hw hr]
  split <;> rfl

lemma guessOutcome_fst (g : GameState) (t k : CardType) :
    (guessOutcome g t k).1 =
      if k = CardType.RED then decide (t ≠ CardType.RED)
      else if k = CardType.BLUE then decide (t ≠ CardType.BLUE)
      else true := by
  cases k <;> rfl

lemma guessOutcome_winner_RED (g : GameState) (t : CardType) :
    (guessOutcome g t CardType.RED).2.2.winner =
      if g.red_remaining - 1 = 0 then some CardType.RED else g.winner := by
  by_cases h : g.red_remaining - 1 = 0 <;> simp [guessOutcome, h]

lemma guessOutcome_winner_BLUE (g : GameState) (t : CardType) :
    (guessOutcome g t CardType.BLUE).2.2.winner =
      if g.blue_remaining - 1 = 0 then some CardType.BLUE else g.winner := by
  by_cases h : g.blue_remaining - 1 = 0 <;> simp [guessOutcome, h]

lemma guessOutcome_result_RED (g : GameState) (t : CardType) :
    (guessOutcome g t CardType.RED).2.1.game_over =
      (if g.red_remaining - 1 = 0 then some true else none) ∧
    (guessOutcome g t CardType.RED).2.1.winner =
      (if g.red_remaining - 1 = 0 then some CardType.RED.value else none) := by
  by_cases h : g.red_remaining - 1 = 0 <;> simp [guessOutcome, h]

lemma guessOutcome_result_BLUE (g : GameState) (t : CardType) :
    (guessOutcome g t CardType.BLUE).2.1.game_over =
      (if g.blue_remaining - 1 = 0 then some true else none) ∧
    (guessOutcome g t CardType.BLUE).2.1.winner =
      (if g.blue_remaining - 1 = 0 then some CardType.BLUE.value else none) := by
  by_cases h : g.blue_remaining - 1 = 0 <;> simp [guessOutcome, h]

/-- C4: once `winner` is set, no engine operation mutates the state:
`process_guess` returns `None` without revealing a card or touching counts,
histories, `current_team` or `turn_count`; `end_turn` returns `False`
without changes; `process_clue` raises `ValueError` without appending to
`clue_history`. -/
theorem C4_gameOver_immutable (g : GameState) (hw : g.winner.isSome) :
    (∀ w t, processGuess g w t = (none, g)) ∧
    (∀ t, endTurn g t = (false, g)) ∧
    (∀ w cs t, ∃ e, processClue g w cs t = (Except.error e, g)) :=
  ⟨fun w t => processGuess_gameOver g w t hw,
   fun t => endTurn_gameOver g t hw,
   fun w cs t => processClue_gameOver g w cs t hw⟩

/-- Witness for C4 on a concrete finished game. -/
theorem C4_witness :
    processGuess gOverEx "zebra" CardType.BLUE = (none, gOverEx) ∧
    endTurn gOverEx CardType.BLUE = (false, gOverEx) ∧
    (∃ e, processClue gOverEx "hint" ["apple"] CardType.BLUE = (Except.error e, gOverEx)) :=
  ⟨(C4_gameOver_immutable gOverEx rfl).1 "zebra" CardType.BLUE,
   (C4_gameOver_immutable gOverEx rfl).2.1 CardType.BLUE,
   (C4_gameOver_immutable gOverEx rfl).2.2 "hint" ["apple"] CardType.BLUE⟩

/-- C2: revealing the assassin sets `winner` to the non-guessing team
regardless of the remaining counts, reports `success=True`, `end_turn=True`,
`game_over=True` with that winner, and the game is terminal: whatever engine
calls follow, the winner never changes. -/
theorem C2_assassin_terminal (g : GameState) (w : String) (t : CardType) (c : Card)
    (b2 : List Card) (hg : g.current_team = t) (hw : g.winner = none)
    (hr : revealFirst w g.board = (some c, b2)) (hk : c.type = CardType.ASSASSIN) :
    (processGuess g w t).2.winner = some (otherTeam t) ∧
    (processGuess g w t).1.map GuessResult.success = some true ∧
    (processGuess g w t).1.map GuessResult.end_turn = some (some true) ∧
    (processGuess g w t).1.map GuessResult.game_over = some (some true) ∧
    (processGuess g w t).1.map GuessResult.winner = some (some (otherTeam t).value) ∧
    (∀ g3, EngineSteps (processGuess g w t).2 g3 → g3.winner = some (otherTeam t)) := by
  rw [processGuess_reveal g w t c b2 hg hw hr, hk]
  refine ⟨rfl, rfl, rfl, rfl, rfl, ?_⟩
  intro g3 hs
  rw [engineSteps_gameOver (by rfl) hs]
  rfl

/-- Witness for C2: the assassin is guessed in a concrete game. -/
theorem C2_witness :
    (processGuess gAssassinEx "night" CardType.RED).2.winner =
      some (otherTeam CardType.RED) ∧
    (processGuess gAssassinEx "night" CardType.RED).1.map GuessResult.success = some true ∧
    (processGuess gAssassinEx "night" CardType.RED).1.map GuessResult.end_turn =
      some (some true) ∧
    (processGuess gAssassinEx "night" CardType.RED).1.map GuessResult.game_over =
      some (some true) ∧
    (processGuess gAssassinEx "night" CardType.RED).1.map GuessResult.winner =
      some (some (otherTeam CardType.RED).value) ∧
    (∀ g3, EngineSteps (processGuess gAssassinEx "night" CardType.RED).2 g3 →
      g3.winner = some (otherTeam CardType.RED)) :=
  C2_assassin_terminal gAssassinEx "night" CardType.RED
    { word := "night", type := CardType.ASSASSIN }
    [{ word := "night", type := CardType.ASSASSIN, revealed := true },
     { word := "day", type := CardType.RED }]
    rfl rfl (by rfl) rfl

/-- C5 counterexample: on a finished game it is the stored current team's
turn and the guessed word matches no unrevealed card, yet `process_guess`
returns `None` rather than a `success=False` dictionary with an error
string. -/
theorem C5_counterexample :
    gOverEx.current_team = CardType.BLUE ∧
    processGuess gOverEx "zebra" CardType.BLUE = (none, gOverEx) :=
  ⟨rfl, rfl⟩

/-- C5 (amended): when additionally no winner is set, guessing a word that
matches no unrevealed board card on the current team's turn returns
`success=False` with an error string and leaves the whole state
unchanged. -/
theorem C5_guess_idempotent_failure (g : GameState) (w : String) (t : CardType)
    (hw : g.winner = none) (hg : g.current_team = t)
    (h : ∀ c ∈ g.board, pyLower c.word = pyLower w → c.revealed = true) :
    processGuess g w t =
      (some { success := false, error := some "Card not found or already revealed" }, g) :=
  processGuess_notFound g w t hg hw (by rw [revealFirst_none_of w g.board h])

/-- Witness for the amended C5. -/
theorem C5_witness :
    processGuess gRedEx "zebra" CardType.RED =
      (some { success := false, error := some "Card not found or already revealed" },
        gRedEx) :=
  C5_guess_idempotent_failure gRedEx "zebra" CardType.RED rfl rfl (by decide)

/-- C1 counterexample: an assassin guess returns `end_turn=True`, sets a
winner, and still increments `turn_count` and flips `current_team`,
contradicting the claim that `current_team` and `turn_count` are unchanged
whenever a winner is set by the call. -/
theorem C1_counterexample :
    (processGuess gAssassinEx "night" CardType.RED).1.map GuessResult.end_turn =
      some (some true) ∧
    (processGuess gAssassinEx "night" CardType.RED).2.winner.isSome = true ∧
    (processGuess gAssassinEx "night" CardType.RED).2.turn_count =
      gAssassinEx.turn_count + 1 ∧
    (processGuess gAssassinEx "night" CardType.RED).2.current_team ≠
      gAssassinEx.current_team := by
  refine ⟨rfl, rfl, rfl, ?_⟩
  decide

/-- C1 (amended): `turn_count` increments and `current_team` flips exactly
when the call returned `end_turn=true` (`True` for `end_turn`), regardless
of whether a winner was set; when `end_turn` is false the two fields are
unchanged; every revealed-card result carries a boolean `end_turn`. -/
theorem C1_turn_alternation (g : GameState) (w : String) (t : CardType) :
    ((processGuess g w t).1.map GuessResult.end_turn = some (some true) →
      (processGuess g w t).2.turn_count = g.turn_count + 1 ∧
      (processGuess g w t).2.current_team = otherTeam g.current_team) ∧
    ((processGuess g w t).1.map GuessResult.end_turn = some (some false) →
      (processGuess g w t).2.turn_count = g.turn_count ∧
      (processGuess g w t).2.current_team = g.current_team) ∧
    ((processGuess g w t).1.map GuessResult.success = some true →
      (processGuess g w t).1.map GuessResult.end_turn = some (some true) ∨
        (processGuess g w t).1.map GuessResult.end_turn = some (some false)) ∧
    ((endTurn g t).1 = true →
      (endTurn g t).2.turn_count = g.turn_count + 1 ∧
      (endTurn g t).2.current_team = otherTeam g.current_team) ∧
    ((endTurn g t).1 = false → (endTurn g t).2 = g) := by
  have hend : ((endTurn g t).1 = true →
      (endTurn g t).2.turn_count = g.turn_count + 1 ∧
      (endTurn g t).2.current_team = otherTeam g.current_team) ∧
      ((endTurn g t).1 = false → (endTurn g t).2 = g) := by
    by_cases hguard : g.current_team ≠ t ∨ g.winner.isSome
    · rw [endTurn_guard g t hguard]
      exact ⟨fun h => by simp at h, fun _ => rfl⟩
    · unfold endTurn
      rw [if_neg hguard]
      exact ⟨fun _ => ⟨rfl, rfl⟩, fun h => by simp at h⟩
  by_cases hguard : g.current_team ≠ t ∨ g.winner.isSome
  · rw [processGuess_guard g w t hguard]
    refine ⟨?_, ?_, ?_, hend.1, hend.2⟩ <;> intro h <;> simp at h
  · have hg : g.current_team = t := not_not.mp fun hc => hguard (Or.inl hc)
    have hw : g.winner = none := by
      cases hwo : g.winner with
      | none => rfl
      | some v => exact absurd (Or.inr (by rw [hwo]; rfl)) hguard
    rcases hrv : revealFirst w g.board with ⟨o, b2⟩
    cases o with
    | none =>
        rw [processGuess_notFound g w t hg hw (by rw [hrv])]
        refine ⟨?_, ?_, ?_, hend.1, hend.2⟩ <;> intro h <;> simp at h
    | some c =>
        rw [processGuess_reveal g w t c b2 hg hw hrv]
        simp only [Option.map_some']
        rw [guessOutcome_end_turn]
        refine ⟨?_, ?_, ?_, hend.1, hend.2⟩
        · intro h
          have hb : (guessOutcome { g with board := b2 } t c.type).1 = true := by
            simpa using h
          rw [if_pos hb]
          exact ⟨by rw [guessOutcome_turn_count], by rw [guessOutcome_current_team]⟩
        · intro h
          have hb : (guessOutcome { g with board := b2 } t c.type).1 = false := by
            simpa using h
          rw [if_neg (by simp [hb])]
          exact ⟨by rw [guessOutcome_turn_count], by rw [guessOutcome_current_team]⟩
        · intro _
          cases hb : (guessOutcome { g with board := b2 } t c.type).1 with
          | false => right; rfl
          | true => left; rfl

/-- Witness for the amended C1: a concrete opposing-card guess with
`end_turn=True` and a concrete `end_turn` call. -/
theorem C1_witness :
    (processGuess gRedEx "sun" CardType.RED).1.map GuessResult.end_turn =
      some (some true) ∧
    (processGuess gRedEx "sun" CardType.RED).2.turn_count = gRedEx.turn_count + 1 ∧
    (processGuess gRedEx "sun" CardType.RED).2.current_team =
      otherTeam gRedEx.current_team ∧
    (endTurn gRedEx CardType.RED).1 = true ∧
    (endTurn gRedEx CardType.RED).2.turn_count = gRedEx.turn_count + 1 :=
  ⟨rfl,
   ((C1_turn_alternation gRedEx "sun" CardType.RED).1 rfl).1,
   ((C1_turn_alternation gRedEx "sun" CardType.RED).1 rfl).2,
   rfl,
   ((C1_turn_alternation gRedEx "sun" CardType.RED).2.2.2.1 rfl).1⟩

lemma range_map_getD {α : Type} (l : List α) (d : α) :
    (List.range l.length).map (fun i => l.getD i d) = l := by
  induction l with
  | nil => rfl
  | cons a t ih =>
      rw [List.length_cons, List.range_succ_eq_map, List.map_cons, List.map_map]
      simp only [Function.comp_def, List.getD_cons_zero, List.getD_cons_succ]
      rw [ih]

lemma createGame_board_words (game_id : String) (words : List String) (ft : CardType)
    (ct : List CardType) (seed : Int) (h : words.length = 25) :
    (createGame game_id words ft ct seed).board.map Card.word = words := by
  have h2 : (createGame game_id words ft ct seed).board.map Card.word
      = (List.range 25).map fun i => words.getD i "" := by
    unfold createGame
    rw [List.map_map]
    rfl
  rw [h2, ← h, range_map_getD]

lemma createGame_board_types (game_id : String) (words : List String) (ft : CardType)
    (ct : List CardType) (seed : Int) (h : ct.length = 25) :
    (createGame game_id words ft ct seed).board.map Card.type = ct := by
  have h2 : (createGame game_id words ft ct seed).board.map Card.type
      = (List.range 25).map fun i => ct.getD i CardType.UNKNOWN := by
    unfold createGame
    rw [List.map_map]
    rfl
  rw [h2, ← h, range_map_getD]

lemma createGame_unrevealed (game_id : String) (words : List String) (ft : CardType)
    (ct : List CardType) (seed : Int) :
    ∀ c ∈ (createGame game_id words ft ct seed).board, c.revealed = false := by
  intro c hc
  unfold createGame at hc
  simp only [List.mem_map] at hc
  obtain ⟨i, _, rfl⟩ := hc
  rfl

lemma typeCount_eq_map (board : List Card) (k : CardType) :
    typeCount board k = (board.map Card.type).countP fun x => decide (x = k) := by
  unfold typeCount
  rw [List.countP_map]
  rfl

lemma unrevealedCount_eq_typeCount (board : List Card) (k : CardType)
    (h : ∀ c ∈ board, c.revealed = false) :
    unrevealedCount board k = typeCount board k := by
  unfold unrevealedCount typeCount
  apply List.countP_congr
  intro c hc
  rw [h c hc]
  simp

lemma cardTypesList_length (ft : CardType)
    (hft : ft = CardType.RED ∨ ft = CardType.BLUE) :
    (cardTypesList ft).length = 25 := by
  rcases hft with rfl | rfl <;> rfl

lemma guard_split (g : GameState) (t : CardType)
    (hguard : ¬(g.current_team ≠ t ∨ g.winner.isSome)) :
    g.current_team = t ∧ g.winner = none :=
  ⟨not_not.mp fun hc => hguard (Or.inl hc), by
    cases hwo : g.winner with
    | none => rfl
    | some v => exact absurd (Or.inr (by rw [hwo]; rfl)) hguard⟩

lemma processClue_snd_fields (g : GameState) (w : String) (cs : List String)
    (t : CardType) :
    (processClue g w cs t).2.board = g.board ∧
    (processClue g w cs t).2.red_remaining = g.red_remaining ∧
    (processClue g w cs t).2.blue_remaining = g.blue_remaining := by
  simp only [processClue]
  split
  · exact ⟨rfl, rfl, rfl⟩
  · split
    · exact ⟨rfl, rfl, rfl⟩
    · exact ⟨rfl, rfl, rfl⟩

lemma endTurn_snd_fields (g : GameState) (t : CardType) :
    (endTurn g t).2.board = g.board ∧
    (endTurn g t).2.red_remaining = g.red_remaining ∧
    (endTurn g t).2.blue_remaining = g.blue_remaining := by
  unfold endTurn
  split
  · exact ⟨rfl, rfl, rfl⟩
  · exact ⟨rfl, rfl, rfl⟩

lemma processGuess_reveal_counts (g : GameState) (w : String) (t : CardType) (c : Card)
    (b2 : List Card) (hg : g.current_team = t) (hw : g.winner = none)
    (hr : revealFirst w g.board = (some c, b2)) :
    (processGuess g w t).2.board = b2 ∧
    (processGuess g w t).2.red_remaining =
      (guessOutcome { g with board := b2 } t c.type).2.2.red_remaining ∧
    (processGuess g w t).2.blue_remaining =
      (guessOutcome { g with board := b2 } t c.type).2.2.blue_remaining := by
  rw [processGuess_reveal g w t c b2 hg hw hr]
  have hb := guessOutcome_board { g with board := b2 } t c.type
  refine ⟨?_, ?_, ?_⟩
  · split <;> simpa using hb
  · split <;> rfl
  · split <;> rfl

lemma guessOutcome_red_remaining (g : GameState) (t k : CardType) :
    (guessOutcome g t k).2.2.red_remaining =
      if k = CardType.RED then g.red_remaining - 1 else g.red_remaining := by
  cases k with
  | RED => by_cases h : g.red_remaining - 1 = 0 <;> simp [guessOutcome, h]
  | BLUE => by_cases h : g.blue_remaining - 1 = 0 <;> simp [guessOutcome, h]
  | NEUTRAL => rfl
  | ASSASSIN => rfl
  | UNKNOWN => rfl

lemma guessOutcome_blue_remaining (g : GameState) (t k : CardType) :
    (guessOutcome g t k).2.2.blue_remaining =
      if k = CardType.BLUE then g.blue_remaining - 1 else g.blue_remaining := by
  cases k with
  | RED => by_cases h : g.red_remaining - 1 = 0 <;> simp [guessOutcome, h]
  | BLUE => by_cases h : g.blue_remaining - 1 = 0 <;> simp [guessOutcome, h]
  | NEUTRAL => rfl
  | ASSASSIN => rfl
  | UNKNOWN => rfl

lemma unrevealedCount_reveal_eq (pre post : List Card) (c : Card) (k : CardType)
    (hrev : c.revealed = false) :
    unrevealedCount (pre ++ c :: post) k =
      unrevealedCount (pre ++ { c with revealed := true } :: post) k +
        (if c.type = k then 1 else 0) := by
  unfold unrevealedCount
  rw [List.countP_append, List.countP_cons, List.countP_append, List.countP_cons]
  by_cases hk : c.type = k
  · simp [hk, hrev]
    omega
  · simp [hk, hrev]

lemma typeCount_reveal_eq (pre post : List Card) (c : Card) (k : CardType) :
    typeCount (pre ++ { c with revealed := true } :: post) k =
      typeCount (pre ++ c :: post) k := by
  unfold typeCount
  rw [List.countP_append, List.countP_cons, List.countP_append, List.countP_cons]

lemma countInvariant_guess (g : GameState) (w : String) (t : CardType)
    (h : CountInvariant g) : CountInvariant (processGuess g w t).2 := by
  by_cases hguard : g.current_team ≠ t ∨ g.winner.isSome
  · rw [processGuess_guard g w t hguard]
    exact h
  · obtain ⟨hg, hw⟩ := guard_split g t hguard
    rcases hrv : revealFirst w g.board with ⟨o, b2⟩
    cases o with
    | none =>
        rw [processGuess_notFound g w t hg hw (by rw [hrv])]
        exact h
    | some c =>
        obtain ⟨pre, post, hb, hb2, hcrev, hcw⟩ := revealFirst_some w g.board c b2 hrv
        obtain ⟨hboard, hredf, hbluef⟩ := processGuess_reveal_counts g w t c b2 hg hw hrv
        obtain ⟨h1, h2, h3, h4⟩ := h
        have hUr := unrevealedCount_reveal_eq pre post c CardType.RED hcrev
        have hUb := unrevealedCount_reveal_eq pre post c CardType.BLUE hcrev
        have hTr := typeCount_reveal_eq pre post c CardType.RED
        have hTb := typeCount_reveal_eq pre post c CardType.BLUE
        rw [hb] at h1 h2 h3 h4
        refine ⟨?_, ?_, ?_, ?_⟩
        · rw [hredf, guessOutcome_red_remaining, hboard, hb2]
          by_cases hk : c.type = CardType.RED
          · rw [if_pos hk] at hUr
            rw [if_pos hk]
            show g.red_remaining - 1 = _
            rw [h1, hUr]
            push_cast
            ring
          · rw [if_neg hk] at hUr
            rw [if_neg hk]
            show g.red_remaining = _
            rw [h1, hUr]
            push_cast
            ring
        · rw [hbluef, guessOutcome_blue_remaining, hboard, hb2]
          by_cases hk : c.type = CardType.BLUE
          · rw [if_pos hk] at hUb
            rw [if_pos hk]
            show g.blue_remaining - 1 = _
            rw [h2, hUb]
            push_cast
            ring
          · rw [if_neg hk] at hUb
            rw [if_neg hk]
            show g.blue_remaining = _
            rw [h2, hUb]
            push_cast
            ring
        · rw [hboard, hb2, hTr]
          exact h3
        · rw [hboard, hb2, hTb]
          exact h4

lemma countInvariant_create (game_id : String) (words : List String) (ft : CardType)
    (ct : List CardType) (seed : Int)
    (hft : ft = CardType.RED ∨ ft = CardType.BLUE)
    (hperm : ct.Perm (cardTypesList ft)) :
    CountInvariant (createGame game_id words ft ct seed) := by
  have hctlen : ct.length = 25 := by
    rw [hperm.length_eq]
    exact cardTypesList_length ft hft
  have htypes := createGame_board_types game_id words ft ct seed hctlen
  have hunrev := createGame_unrevealed game_id words ft ct seed
  have hcount : ∀ k, typeCount (createGame game_id words ft ct seed).board k
      = (cardTypesList ft).countP fun x => decide (x = k) := by
    intro k
    rw [typeCount_eq_map, htypes, hperm.countP_eq]
  have huc : ∀ k, unrevealedCount (createGame game_id words ft ct seed).board k
      = typeCount (createGame game_id words ft ct seed).board k :=
    fun k => unrevealedCount_eq_typeCount _ k hunrev
  refine ⟨?_, ?_, ?_, ?_⟩
  · rw [huc, hcount]
    rcases hft with rfl | rfl <;> rfl
  · rw [huc, hcount]
    rcases hft with rfl | rfl <;> rfl
  · rw [hcount]
    rcases hft with rfl | rfl <;> decide
  · rw [hcount]
    rcases hft with rfl | rfl <;> decide

lemma countInvariant_step {g g2 : GameState} (h : CountInvariant g)
    (hs : EngineStep g g2) : CountInvariant g2 := by
  cases hs with
  | clue w cs t =>
      obtain ⟨hb, hr, hbl⟩ := processClue_snd_fields g w cs t
      unfold CountInvariant
      rw [hb, hr, hbl]
      exact h
  | turn t =>
      obtain ⟨hb, hr, hbl⟩ := endTurn_snd_fields g t
      unfold CountInvariant
      rw [hb, hr, hbl]
      exact h
  | guess w t => exact countInvariant_guess g w t h

/-- C10: in every reachable state, `red_remaining` and `blue_remaining`
equal the number of unrevealed RED and BLUE cards respectively; both lie
between 0 and 9 and never go negative. -/
theorem C10_remaining_matches_board (g : GameState) (h : Reachable g) :
    g.red_remaining = (unrevealedCount g.board CardType.RED : Int) ∧
    g.blue_remaining = (unrevealedCount g.board CardType.BLUE : Int) ∧
    0 ≤ g.red_remaining ∧ g.red_remaining ≤ 9 ∧
    0 ≤ g.blue_remaining ∧ g.blue_remaining ≤ 9 := by
  have hinv : CountInvariant g := by
    induction h with
    | create game_id words ft ct seed hft hperm =>
        exact countInvariant_create game_id words ft ct seed hft hperm
    | step hr hs ih => exact countInvariant_step ih hs
  obtain ⟨h1, h2, h3, h4⟩ := hinv
  have hmr : unrevealedCount g.board CardType.RED ≤ typeCount g.board CardType.RED := by
    apply List.countP_mono_left
    intro c hc hp
    simp only [Bool.and_eq_true] at hp
    exact hp.1
  have hmb : unrevealedCount g.board CardType.BLUE ≤ typeCount g.board CardType.BLUE := by
    apply List.countP_mono_left
    intro c hc hp
    simp only [Bool.and_eq_true] at hp
    exact hp.1
  refine ⟨h1, h2, ?_, ?_, ?_, ?_⟩
  · rw [h1]
    exact Int.natCast_nonneg _
  · rw [h1]
    exact_mod_cast le_trans hmr h3
  · rw [h2]
    exact Int.natCast_nonneg _
  · rw [h2]
    exact_mod_cast le_trans hmb h4

/-- Witness for C10 at a freshly created concrete game. -/
theorem C10_witness :
    (createGame "wA" wordsEx CardType.RED (cardTypesList CardType.RED) 0).red_remaining =
      (unrevealedCount
        (createGame "wA" wordsEx CardType.RED (cardTypesList CardType.RED) 0).board
        CardType.RED : Int) ∧
    0 ≤ (createGame "wA" wordsEx CardType.RED (cardTypesList CardType.RED) 0).red_remaining ∧
    (createGame "wA" wordsEx CardType.RED (cardTypesList CardType.RED) 0).red_remaining ≤ 9 :=
  have h := C10_remaining_matches_board
    (createGame "wA" wordsEx CardType.RED (cardTypesList CardType.RED) 0)
    (Reachable.create "wA" wordsEx CardType.RED (cardTypesList CardType.RED) 0
      (Or.inl rfl) (List.Perm.refl _))
  ⟨h.1, h.2.2.1, h.2.2.2.1⟩

/-- C6: a created game (25 distinct sampled words, positive team sizes) has
a 25-card board of distinct words with exactly 1 assassin, 7 neutral cards,
9 cards of the starting team's kind and 8 of the other's; the remaining
counters start at the per-team board counts and `current_team` is the
9-card team. -/
theorem C6_board_shape (game_id : String) (words : List String) (ft : CardType)
    (ct : List CardType) (seed : Int)
    (hlen : words.length = 25) (hnd : words.Nodup)
    (hft : ft = CardType.RED ∨ ft = CardType.BLUE)
    (hperm : ct.Perm (cardTypesList ft)) :
    (createGame game_id words ft ct seed).board.length = 25 ∧
    ((createGame game_id words ft ct seed).board.map Card.word).Nodup ∧
    typeCount (createGame game_id words ft ct seed).board CardType.ASSASSIN = 1 ∧
    typeCount (createGame game_id words ft ct seed).board CardType.NEUTRAL = 7 ∧
    typeCount (createGame game_id words ft ct seed).board ft = 9 ∧
    typeCount (createGame game_id words ft ct seed).board (otherTeam ft) = 8 ∧
    (createGame game_id words ft ct seed).red_remaining =
      (typeCount (createGame game_id words ft ct seed).board CardType.RED : Int) ∧
    (createGame game_id words ft ct seed).blue_remaining =
      (typeCount (createGame game_id words ft ct seed).board CardType.BLUE : Int) ∧
    (createGame game_id words ft ct seed).current_team = ft := by
  have hctlen : ct.length = 25 := by
    rw [hperm.length_eq]
    exact cardTypesList_length ft hft
  have htypes := createGame_board_types game_id words ft ct seed hctlen
  have hcount : ∀ k, typeCount (createGame game_id words ft ct seed).board k
      = (cardTypesList ft).countP fun x => decide (x = k) := by
    intro k
    rw [typeCount_eq_map, htypes, hperm.countP_eq]
  refine ⟨?_, ?_, ?_, ?_, ?_, ?_, ?_, ?_, rfl⟩
  · simp [createGame]
  · rw [createGame_board_words game_id words ft ct seed hlen]
    exact hnd
  · rw [hcount]
    rcases hft with rfl | rfl <;> rfl
  · rw [hcount]
    rcases hft with rfl | rfl <;> rfl
  · rw [hcount]
    rcases hft with rfl | rfl <;> rfl
  · rw [hcount]
    rcases hft with rfl | rfl <;> rfl
  · rw [hcount]
    rcases hft with rfl | rfl <;> rfl
  · rw [hcount]
    rcases hft with rfl | rfl <;> rfl

/-- Witness for C6 at a concrete word sample and shuffle. -/
theorem C6_witness :
    (createGame "w6" wordsEx CardType.RED (cardTypesList CardType.RED) 0).board.length
      = 25 ∧
    typeCount (createGame "w6" wordsEx CardType.RED (cardTypesList CardType.RED) 0).board
      CardType.ASSASSIN = 1 ∧
    typeCount (createGame "w6" wordsEx CardType.RED (cardTypesList CardType.RED) 0).board
      CardType.RED = 9 ∧
    typeCount (createGame "w6" wordsEx CardType.RED (cardTypesList CardType.RED) 0).board
      (otherTeam CardType.RED) = 8 ∧
    (createGame "w6" wordsEx CardType.RED (cardTypesList CardType.RED) 0).current_team =
      CardType.RED :=
  have h := C6_board_shape "w6" wordsEx CardType.RED (cardTypesList CardType.RED) 0
    (by decide) (by decide) (Or.inl rfl) (List.Perm.refl _)
  ⟨h.1, h.2.2.1, h.2.2.2.2.1, h.2.2.2.2.2.1, h.2.2.2.2.2.2.2.2⟩

lemma validateClue_cases (g : GameState) (w : String) (cs : List String) (t : CardType) :
    ((validateClue g w cs t).is_valid = true ∧ (validateClue g w cs t).error = none ∧
      g.current_team = t ∧ g.winner = none) ∨
    ((validateClue g w cs t).is_valid = false ∧ (validateClue g w cs t).error.isSome) := by
  unfold validateClue
  by_cases h1 : g.current_team ≠ t
  · rw [if_pos h1]
    exact Or.inr ⟨rfl, rfl⟩
  · rw [if_neg h1]
    cases hwo : g.winner with
    | some v => exact Or.inr ⟨rfl, rfl⟩
    | none =>
        by_cases h2 : w = "" ∨ 1 < (pySplit w).length
        · rw [if_pos h2]
          exact Or.inr ⟨rfl, rfl⟩
        · rw [if_neg h2]
          by_cases h3 : pyLower w ∈ g.board.map fun c => pyLower c.word
          · rw [if_pos h3]
            exact Or.inr ⟨rfl, rfl⟩
          · rw [if_neg h3]
            cases hf : cs.find? (fun cw => ¬ pyLower cw ∈ g.board.map fun c => pyLower c.word)
              with
            | some cw => exact Or.inr ⟨rfl, rfl⟩
            | none =>
                by_cases h4 : cs.length ≠ cs.dedup.length
                · rw [if_pos h4]
                  exact Or.inr ⟨rfl, rfl⟩
                · rw [if_neg h4]
                  exact Or.inl ⟨rfl, rfl, not_not.mp h1, rfl⟩

/-- C9: `process_clue` signals an error carrying the validation reason
exactly when `validate_clue` rejects the clue; on a valid clue it returns
`True` and appends exactly one record to `clue_history`, whose count
component is `len(target_words)`, changing nothing else in the state. -/
theorem C9_clue_validation (g : GameState) (w : String) (cs : List String) (t : CardType) :
    (∀ e, (processClue g w cs t).1 = Except.error e ↔
      ((validateClue g w cs t).is_valid = false ∧
        (validateClue g w cs t).error = some e)) ∧
    ((validateClue g w cs t).is_valid = true →
      processClue g w cs t =
        (Except.ok true,
          { g with clue_history := g.clue_history ++ [(t, w, cs.length, cs)] })) ∧
    ((validateClue g w cs t).is_valid = false → (processClue g w cs t).2 = g) := by
  rcases validateClue_cases g w cs t with ⟨hv, he, hg, hwo⟩ | ⟨hv, he⟩
  · have hok : processClue g w cs t =
        (Except.ok true,
          { g with clue_history := g.clue_history ++ [(t, w, cs.length, cs)] }) := by
      unfold processClue
      rw [if_neg (by rw [hv]; simp), if_neg (by simp [hg, hwo])]
    refine ⟨?_, fun _ => hok, ?_⟩
    · intro e
      rw [hok]
      constructor
      · intro hcontra
        exact absurd hcontra (by simp)
      · rintro ⟨hfalse, -⟩
        rw [hv] at hfalse
        exact absurd hfalse (by simp)
    · intro hfalse
      rw [hv] at hfalse
      exact absurd hfalse (by simp)
  · obtain ⟨e0, he0⟩ := Option.isSome_iff_exists.mp he
    have herr : processClue g w cs t = (Except.error e0, g) := by
      have h := processClue_invalid g w cs t hv
      rw [he0] at h
      exact h
    refine ⟨?_, ?_, fun _ => by rw [herr]⟩
    · intro e
      rw [herr]
      constructor
      · intro hexc
        have : e0 = e := by
          injection hexc
        exact ⟨hv, this ▸ he0⟩
      · rintro ⟨-, hsome⟩
        rw [he0] at hsome
        injection hsome with hsome
        rw [hsome]
    · intro htrue
      rw [hv] at htrue
      exact absurd htrue (by simp)

/-- Witness for C9: a concrete valid clue is recorded, a concrete invalid
clue errors without mutation. -/
theorem C9_witness :
    processClue gRed2Ex "hint" ["day", "rock"] CardType.RED =
      (Except.ok true,
        { gRed2Ex with
            clue_history := gRed2Ex.clue_history ++
              [(CardType.RED, "hint", 2, ["day", "rock"])] }) ∧
    ((processClue gRed2Ex "day" ["rock"] CardType.RED).1 =
        Except.error "Clue cannot be a word that appears on the board" ↔
      ((validateClue gRed2Ex "day" ["rock"] CardType.RED).is_valid = false ∧
        (validateClue gRed2Ex "day" ["rock"] CardType.RED).error =
          some "Clue cannot be a word that appears on the board")) ∧
    (processClue gRed2Ex "day" ["rock"] CardType.RED).2 = gRed2Ex :=
  ⟨(C9_clue_validation gRed2Ex "hint" ["day", "rock"] CardType.RED).2.1 (by decide),
   (C9_clue_validation gRed2Ex "day" ["rock"] CardType.RED).1
     "Clue cannot be a word that appears on the board",
   (C9_clue_validation gRed2Ex "day" ["rock"] CardType.RED).2.2 (by decide)⟩

/-- C3: revealing a team card that brings that team's remaining count to 0
sets `winner` to that team (whichever team guessed) with `game_over=True`
and that winner reported; a team revealing its own card while its count
stays positive gets `end_turn=False` and no winner is set. -/
theorem C3_depletion_win (g : GameState) (w : String) (t : CardType) (c : Card)
    (b2 : List Card) (hg : g.current_team = t) (hw : g.winner = none)
    (hr : revealFirst w g.board = (some c, b2)) :
    (c.type = CardType.RED →
      (g.red_remaining = 1 →
        (processGuess g w t).2.winner = some CardType.RED ∧
        (processGuess g w t).1.map GuessResult.game_over = some (some true) ∧
        (processGuess g w t).1.map GuessResult.winner =
          some (some CardType.RED.value)) ∧
      (t = CardType.RED → 0 < g.red_remaining - 1 →
        (processGuess g w t).1.map GuessResult.end_turn = some (some false) ∧
        (processGuess g w t).2.winner = none)) ∧
    (c.type = CardType.BLUE →
      (g.blue_remaining = 1 →
        (processGuess g w t).2.winner = some CardType.BLUE ∧
        (processGuess g w t).1.map GuessResult.game_over = some (some true) ∧
        (processGuess g w t).1.map GuessResult.winner =
          some (some CardType.BLUE.value)) ∧
      (t = CardType.BLUE → 0 < g.blue_remaining - 1 →
        (processGuess g w t).1.map GuessResult.end_turn = some (some false) ∧
        (processGuess g w t).2.winner = none)) := by
  have h1 := processGuess_reveal_winner g w t c b2 hg hw hr
  have h2 := processGuess_reveal_fst g w t c b2 hg hw hr
  constructor
  · intro hk
    rw [hk] at h1 h2
    constructor
    · intro hrem
      refine ⟨?_, ?_, ?_⟩
      · rw [h1, guessOutcome_winner_RED]
        simp [hrem]
      · rw [h2, Option.map_some', (guessOutcome_result_RED _ t).1]
        simp [hrem]
      · rw [h2, Option.map_some', (guessOutcome_result_RED _ t).2]
        simp [hrem]
    · intro ht hrem
      constructor
      · rw [h2, Option.map_some', guessOutcome_end_turn, guessOutcome_fst]
        simp [ht]
      · rw [h1, guessOutcome_winner_RED]
        have : ¬ (({ g with board := b2 } : GameState).red_remaining - 1 = 0) := by
          simp only
          omega
        rw [if_neg this]
        exact hw
  · intro hk
    rw [hk] at h1 h2
    constructor
    · intro hrem
      refine ⟨?_, ?_, ?_⟩
      · rw [h1, guessOutcome_winner_BLUE]
        simp [hrem]
      · rw [h2, Option.map_some', (guessOutcome_result_BLUE _ t).1]
        simp [hrem]
      · rw [h2, Option.map_some', (guessOutcome_result_BLUE _ t).2]
        simp [hrem]
    · intro ht hrem
      constructor
      · rw [h2, Option.map_some', guessOutcome_end_turn, guessOutcome_fst]
        simp [ht]
      · rw [h1, guessOutcome_winner_BLUE]
        have : ¬ (({ g with board := b2 } : GameState).blue_remaining - 1 = 0) := by
          simp only
          omega
        rw [if_neg this]
        exact hw

/-- Witness for C3: a depleting guess and a turn-continuing guess on
concrete games. -/
theorem C3_witness :
    (processGuess gRedEx "day" CardType.RED).2.winner = some CardType.RED ∧
    (processGuess gRedEx "day" CardType.RED).1.map GuessResult.game_over =
      some (some true) ∧
    (processGuess gRed2Ex "day" CardType.RED).1.map GuessResult.end_turn =
      some (some false) ∧
    (processGuess gRed2Ex "day" CardType.RED).2.winner = none :=
  ⟨(((C3_depletion_win gRedEx "day" CardType.RED
        { word := "day", type := CardType.RED }
        [{ word := "day", type := CardType.RED, revealed := true },
         { word := "sun", type := CardType.BLUE },
         { word := "sea", type := CardType.BLUE }]
        rfl rfl (by rfl)).1 rfl).1 rfl).1,
   (((C3_depletion_win gRedEx "day" CardType.RED
        { word := "day", type := CardType.RED }
        [{ word := "day", type := CardType.RED, revealed := true },
         { word := "sun", type := CardType.BLUE },
         { word := "sea", type := CardType.BLUE }]
        rfl rfl (by rfl)).1 rfl).1 rfl).2.1,
   (((C3_depletion_win gRed2Ex "day" CardType.RED
        { word := "day", type := CardType.RED }
        [{ word := "day", type := CardType.RED, revealed := true },
         { word := "rock", type := CardType.RED },
         { word := "sun", type := CardType.BLUE }]
        rfl rfl (by rfl)).1 rfl).2 rfl (by decide)).1,
   (((C3_depletion_win gRed2Ex "day" CardType.RED
        { word := "day", type := CardType.RED }
        [{ word := "day", type := CardType.RED, revealed := true },
         { word := "rock", type := CardType.RED },
         { word := "sun", type := CardType.BLUE }]
        rfl rfl (by rfl)).1 rfl).2 rfl (by decide)).2⟩

end Codenames
namespace Debate

open Codenames

lemma filter_ne_empty_eq_some (o : Option String) (s : String) :
    o.filter (fun v => decide (v ≠ "")) = some s ↔ o = some s ∧ s ≠ "" := by
  cases o with
  | none =>
      constructor
      · intro h
        exact absurd h (by simp [Option.filter])
      · rintro ⟨h, -⟩
        exact absurd h (by simp)
  | some v =>
      by_cases hv : v = ""
      · constructor
        · intro h
          rw [hv] at h
          exact absurd h (by simp [Option.filter])
        · rintro ⟨h1, h2⟩
          injection h1 with h1
          exact absurd (h1 ▸ hv) h2
      · have hf : (some v).filter (fun v => decide (v ≠ "")) = some v := by
          simp [Option.filter, hv]
        rw [hf]
        constructor
        · intro h
          injection h with h
          exact ⟨by rw [h], by rw [← h]; exact hv⟩
        · rintro ⟨h1, -⟩
          exact h1

lemma mem_collectGuesses (log : List DebateEntry) (s : String) :
    s ∈ collectGuesses log ↔ ∃ e ∈ log, e.guess = some s ∧ s ≠ "" := by
  unfold collectGuesses
  rw [List.mem_dedup, List.mem_filterMap]
  constructor
  · rintro ⟨e, he, hf⟩
    obtain ⟨h1, h2⟩ := (filter_ne_empty_eq_some e.guess s).mp hf
    exact ⟨e, he, h1, h2⟩
  · rintro ⟨e, he, h1, h2⟩
    exact ⟨e, he, (filter_ne_empty_eq_some e.guess s).mpr ⟨h1, h2⟩⟩

lemma mem_insertSorted (s : String) (l : List String) (x : String) :
    x ∈ insertSorted s l ↔ x = s ∨ x ∈ l := by
  induction l with
  | nil => simp [insertSorted]
  | cons a t ih =>
      unfold insertSorted
      by_cases h : s ≤ a
      · rw [if_pos h]
        simp [List.mem_cons]
      · rw [if_neg h]
        simp only [List.mem_cons, ih]
        tauto

lemma mem_sortStrings (l : List String) (x : String) : x ∈ sortStrings l ↔ x ∈ l := by
  induction l with
  | nil => simp [sortStrings]
  | cons a t ih =>
      have h1 : sortStrings (a :: t) = insertSorted a (sortStrings t) := rfl
      rw [h1, mem_insertSorted, ih, List.mem_cons]

lemma mem_withEnd (l : List String) (x : String) :
    x ∈ withEnd l ↔ x = "end" ∨ x ∈ l := by
  unfold withEnd
  by_cases h : "end" ∈ l
  · rw [if_pos h]
    constructor
    · exact Or.inr
    · rintro (rfl | hx)
      exacts [h, hx]
  · rw [if_neg h]
    rw [List.mem_append]
    simp only [List.mem_singleton]
    tauto

lemma mem_votingOptions (log : List DebateEntry) (s : String) :
    s ∈ votingOptions log ↔ s = "end" ∨ ∃ e ∈ log, e.guess = some s ∧ s ≠ "" := by
  unfold votingOptions
  rw [mem_sortStrings, mem_withEnd, mem_collectGuesses]

lemma end_mem_votingOptions (log : List DebateEntry) : "end" ∈ votingOptions log :=
  (mem_votingOptions log "end").mpr (Or.inl rfl)

lemma votingOptions_ne_nil (log : List DebateEntry) : votingOptions log ≠ [] :=
  List.ne_nil_of_mem (end_mem_votingOptions log)

lemma dictInsert_mem (k v : String) :
    ∀ (d : List (String × String)) (p : String × String),
      p ∈ dictInsert k v d → p.2 = v ∨ p ∈ d := by
  intro d
  induction d with
  | nil =>
      intro p hp
      simp only [dictInsert, List.mem_singleton] at hp
      left
      rw [hp]
  | cons q rest ih =>
      intro p hp
      obtain ⟨k2, v2⟩ := q
      rw [dictInsert] at hp
      by_cases h : k2 = k
      · rw [if_pos h] at hp
        rcases List.mem_cons.mp hp with rfl | hin
        · left
          rfl
        · right
          exact List.mem_cons_of_mem _ hin
      · rw [if_neg h] at hp
        rcases List.mem_cons.mp hp with rfl | hin
        · right
          exact List.mem_cons_self _ _
        · rcases ih p hin with hv | hmem
          · left
            exact hv
          · right
            exact List.mem_cons_of_mem _ hmem

lemma dictInsert_ne_nil (k v : String) (d : List (String × String)) :
    dictInsert k v d ≠ [] := by
  cases d with
  | nil => simp [dictInsert]
  | cons q rest =>
      obtain ⟨k2, v2⟩ := q
      rw [dictInsert]
      split <;> simp

lemma foldl_dictInsert_values (log : List DebateEntry) (opts : List String)
    (gs : GameState) (clue : String) (number : Nat) :
    ∀ (agents : List Agent) (d : List (String × String)) (p : String × String),
      p ∈ agents.foldl
        (fun votes agent =>
          dictInsert agent.name (agent.finalVote log opts gs clue number) votes) d →
      (∃ a ∈ agents, p.2 = a.finalVote log opts gs clue number) ∨ p ∈ d := by
  intro agents
  induction agents with
  | nil =>
      intro d p hp
      exact Or.inr hp
  | cons a rest ih =>
      intro d p hp
      rw [List.foldl_cons] at hp
      rcases ih _ p hp with ⟨b, hb, hbv⟩ | hmem
      · exact Or.inl ⟨b, List.mem_cons_of_mem a hb, hbv⟩
      · rcases dictInsert_mem _ _ _ p hmem with hv | hd
        · exact Or.inl ⟨a, List.mem_cons_self a rest, hv⟩
        · exact Or.inr hd

lemma votesDict_values (agents : List Agent) (log : List DebateEntry)
    (opts : List String) (gs : GameState) (clue : String) (number : Nat)
    (p : String × String) (hp : p ∈ votesDict agents log opts gs clue number) :
    ∃ a ∈ agents, p.2 = a.finalVote log opts gs clue number := by
  rcases foldl_dictInsert_values log opts gs clue number agents [] p hp with h | h
  · exact h
  · exact absurd h (List.not_mem_nil p)

lemma foldl_dictInsert_ne_nil (log : List DebateEntry) (opts : List String)
    (gs : GameState) (clue : String) (number : Nat) :
    ∀ (agents : List Agent) (d : List (String × String)), d ≠ [] →
      agents.foldl
        (fun votes agent =>
          dictInsert agent.name (agent.finalVote log opts gs clue number) votes) d ≠ [] := by
  intro agents
  induction agents with
  | nil =>
      intro d hd
      exact hd
  | cons a rest ih =>
      intro d hd
      rw [List.foldl_cons]
      exact ih _ (dictInsert_ne_nil _ _ _)

lemma votesDict_ne_nil (agents : List Agent) (log : List DebateEntry)
    (opts : List String) (gs : GameState) (clue : String) (number : Nat)
    (hN : agents ≠ []) : votesDict agents log opts gs clue number ≠ [] := by
  cases agents with
  | nil => exact absurd rfl hN
  | cons a rest =>
      unfold votesDict
      rw [List.foldl_cons]
      exact foldl_dictInsert_ne_nil log opts gs clue number rest _
        (dictInsert_ne_nil _ _ _)

lemma counterAdd_mem (x : String) :
    ∀ (c : List (String × Nat)) (p : String × Nat), p ∈ counterAdd x c →
      p.1 = x ∨ p ∈ c := by
  intro c
  induction c with
  | nil =>
      intro p hp
      simp only [counterAdd, List.mem_singleton] at hp
      left
      rw [hp]
  | cons q rest ih =>
      intro p hp
      obtain ⟨k2, n2⟩ := q
      rw [counterAdd] at hp
      by_cases h : k2 = x
      · rw [if_pos h] at hp
        rcases List.mem_cons.mp hp with rfl | hin
        · left
          exact h
        · right
          exact List.mem_cons_of_mem _ hin
      · rw [if_neg h] at hp
        rcases List.mem_cons.mp hp with rfl | hin
        · right
          exact List.mem_cons_self _ _
        · rcases ih p hin with hv | hmem
          · left
            exact hv
          · right
            exact List.mem_cons_of_mem _ hmem

lemma counterAdd_ne_nil (x : String) (c : List (String × Nat)) : counterAdd x c ≠ [] := by
  cases c with
  | nil => simp [counterAdd]
  | cons q rest =>
      obtain ⟨k2, n2⟩ := q
      rw [counterAdd]
      split <;> simp

lemma foldl_counterAdd_keys :
    ∀ (vals : List String) (c : List (String × Nat)) (p : String × Nat),
      p ∈ vals.foldl (fun c v => counterAdd v c) c →
      p.1 ∈ vals ∨ p ∈ c := by
  intro vals
  induction vals with
  | nil =>
      intro c p hp
      exact Or.inr hp
  | cons v rest ih =>
      intro c p hp
      rw [List.foldl_cons] at hp
      rcases ih _ p hp with h | hmem
      · exact Or.inl (List.mem_cons_of_mem v h)
      · rcases counterAdd_mem v c p hmem with h2 | h2
        · exact Or.inl (by rw [h2]; exact List.mem_cons_self _ _)
        · exact Or.inr h2

lemma counterOf_keys (vals : List String) (p : String × Nat)
    (hp : p ∈ counterOf vals) : p.1 ∈ vals := by
  rcases foldl_counterAdd_keys vals [] p hp with h | h
  · exact h
  · exact absurd h (List.not_mem_nil p)

lemma foldl_counterAdd_ne_nil :
    ∀ (vals : List String) (c : List (String × Nat)), c ≠ [] →
      vals.foldl (fun c v => counterAdd v c) c ≠ [] := by
  intro vals
  induction vals with
  | nil =>
      intro c hc
      exact hc
  | cons v rest ih =>
      intro c hc
      rw [List.foldl_cons]
      exact ih _ (counterAdd_ne_nil _ _)

lemma counterOf_ne_nil (vals : List String) (h : vals ≠ []) : counterOf vals ≠ [] := by
  cases vals with
  | nil => exact absurd rfl h
  | cons v rest =>
      unfold counterOf
      rw [List.foldl_cons]
      exact foldl_counterAdd_ne_nil rest _ (counterAdd_ne_nil _ _)

lemma insertByCount_perm (x : String × Nat) (l : List (String × Nat)) :
    (insertByCount x l).Perm (x :: l) := by
  induction l with
  | nil => exact List.Perm.refl _
  | cons y ys ih =>
      rw [insertByCount]
      split
      · exact List.Perm.refl _
      · exact List.Perm.trans (List.Perm.cons y ih) (List.Perm.swap x y ys)

lemma foldl_insertByCount_perm :
    ∀ (c acc : List (String × Nat)),
      (c.foldl (fun a x => insertByCount x a) acc).Perm (acc ++ c) := by
  intro c
  induction c with
  | nil =>
      intro acc
      rw [List.foldl_nil, List.append_nil]
  | cons x rest ih =>
      intro acc
      rw [List.foldl_cons]
      refine List.Perm.trans (ih _) ?_
      refine List.Perm.trans (List.Perm.append_right rest (insertByCount_perm x acc)) ?_
      exact List.perm_middle.symm

lemma mostCommon_perm (c : List (String × Nat)) : (mostCommon c).Perm c := by
  have h := foldl_insertByCount_perm c []
  rw [List.nil_append] at h
  exact h

lemma mostCommon_ne_nil (c : List (String × Nat)) (h : c ≠ []) : mostCommon c ≠ [] := by
  intro hnil
  have hlen := (mostCommon_perm c).length_eq
  rw [hnil] at hlen
  exact h (List.length_eq_zero.mp hlen.symm)

lemma decideVote_mem (choice : List String → String) (tv : List (String × Nat))
    (hne : tv ≠ []) (hchoice : ∀ l : List String, l ≠ [] → choice l ∈ l) :
    ∃ p ∈ tv, decideVote choice tv = p.1 := by
  cases tv with
  | nil => exact absurd rfl hne
  | cons t0 rest =>
      cases rest with
      | nil => exact ⟨t0, List.mem_cons_self _ _, rfl⟩
      | cons t1 rest2 =>
          by_cases h : t0.2 = t1.2
          · have ht0 : t0 ∈ (t0 :: t1 :: rest2).filter fun p => p.2 = t0.2 := by
              apply List.mem_filter.mpr
              exact ⟨List.mem_cons_self _ _, by simp⟩
            have htied_ne :
                ((t0 :: t1 :: rest2).filter fun p => p.2 = t0.2).map (fun p => p.1) ≠ [] :=
              List.ne_nil_of_mem (List.mem_map_of_mem (fun p => p.1) ht0)
            have hc := hchoice _ htied_ne
            obtain ⟨p, hpf, hpe⟩ := List.mem_map.mp hc
            refine ⟨p, (List.mem_filter.mp hpf).1, ?_⟩
            show (if t0.2 = t1.2 then
                choice (((t0 :: t1 :: rest2).filter fun p => p.2 = t0.2).map fun p => p.1)
              else t0.1) = p.1
            rw [if_pos h]
            exact hpe.symm
          · refine ⟨t0, List.mem_cons_self _ _, ?_⟩
            show (if t0.2 = t1.2 then
                choice (((t0 :: t1 :: rest2).filter fun p => p.2 = t0.2).map fun p => p.1)
              else t0.1) = t0.1
            rw [if_neg h]

lemma choiceHead_mem : ∀ l : List String, l ≠ [] → choiceHead l ∈ l := by
  intro l h
  cases l with
  | nil => exact absurd rfl h
  | cons a t => exact List.mem_cons_self a t

/-- C7: with N ≥ 1 agents, any round budget, any preference extractor and
any valid global `random.choice`, assuming every agent's `final_vote`
returns a member of the offered options, `run_debate` terminates (it is a
total function here) with a `final_decision` in the voting option set, and
that option set is exactly the non-empty extracted preferences of the
transcript together with the `"end"` sentinel. -/
theorem C7_debate_final_decision (dm : DebateManager) (choice : List String → String)
    (extractPref : String → GameState → Option String) (agents : List Agent)
    (gs : GameState) (clue : String) (number correct_guesses : Nat)
    (previous_guesses : List PyDict)
    (hN : agents ≠ [])
    (hchoice : ∀ l : List String, l ≠ [] → choice l ∈ l)
    (hvote : ∀ a ∈ agents, ∀ log opts, opts ≠ [] →
      a.finalVote log opts gs clue number ∈ opts) :
    (dm.runDebate choice extractPref agents gs clue number correct_guesses
        previous_guesses).final_decision ∈
      votingOptions (dm.runDebate choice extractPref agents gs clue number
        correct_guesses previous_guesses).debate_log ∧
    (∀ s, s ∈ votingOptions (dm.runDebate choice extractPref agents gs clue number
        correct_guesses previous_guesses).debate_log ↔
      (s = "end" ∨ ∃ e ∈ (dm.runDebate choice extractPref agents gs clue number
        correct_guesses previous_guesses).debate_log, e.guess = some s ∧ s ≠ "")) := by
  constructor
  · show decideVote choice (mostCommon (counterOf ((votesDict agents
      (debateLog dm extractPref agents gs clue number correct_guesses previous_guesses)
      (votingOptions (debateLog dm extractPref agents gs clue number correct_guesses
        previous_guesses)) gs clue number).map fun p => p.2))) ∈
      votingOptions (debateLog dm extractPref agents gs clue number correct_guesses
        previous_guesses)
    have hvne := votesDict_ne_nil agents
      (debateLog dm extractPref agents gs clue number correct_guesses previous_guesses)
      (votingOptions (debateLog dm extractPref agents gs clue number correct_guesses
        previous_guesses)) gs clue number hN
    have hvalsne : ((votesDict agents
        (debateLog dm extractPref agents gs clue number correct_guesses previous_guesses)
        (votingOptions (debateLog dm extractPref agents gs clue number correct_guesses
          previous_guesses)) gs clue number).map fun p => p.2) ≠ [] := by
      intro hnil
      exact hvne (List.map_eq_nil_iff.mp hnil)
    have hcne := counterOf_ne_nil _ hvalsne
    have hmne := mostCommon_ne_nil _ hcne
    obtain ⟨p, hptv, hpd⟩ := decideVote_mem choice _ hmne hchoice
    rw [hpd]
    have hpc := (mostCommon_perm _).mem_iff.mp hptv
    have hkv := counterOf_keys _ _ hpc
    obtain ⟨q, hq, hq2⟩ := List.mem_map.mp hkv
    obtain ⟨a, ha, hav⟩ := votesDict_values agents _ _ gs clue number q hq
    rw [← hq2, hav]
    exact hvote a ha _ _ (votingOptions_ne_nil _)
  · intro s
    exact mem_votingOptions _ s

/-- Witness for C7 with a single concrete agent voting for the first
option. -/
theorem C7_witness :
    (dmEx.runDebate choiceHead extractNone [agentC] gsEx "hint" 1 0 []).final_decision ∈
      votingOptions (dmEx.runDebate choiceHead extractNone [agentC] gsEx "hint" 1 0
        []).debate_log :=
  (C7_debate_final_decision dmEx choiceHead extractNone [agentC] gsEx "hint" 1 0 []
    (by simp) choiceHead_mem
    (fun a ha log opts hne => by
      rw [List.mem_singleton.mp ha]
      cases opts with
      | nil => exact absurd rfl hne
      | cons x xs => exact List.mem_cons_self x xs)).1

/-- C8 counterexample: two runs with identical transcripts, identical vote
counts and the very same `DebateManager`, differing only in the state of
the module-global `random.choice`, resolve the tie differently — so the
tie-break is not reproducible from any Debate-Manager-local seed (the
manager holds none). -/
theorem C8_counterexample :
    (dmEx.runDebate choiceHead extractNone agentsEx gsEx "hint" 1 0 []).debate_log =
      (dmEx.runDebate choiceLast extractNone agentsEx gsEx "hint" 1 0 []).debate_log ∧
    (dmEx.runDebate choiceHead extractNone agentsEx gsEx "hint" 1 0 []).vote_counts =
      (dmEx.runDebate choiceLast extractNone agentsEx gsEx "hint" 1 0 []).vote_counts ∧
    (dmEx.runDebate choiceHead extractNone agentsEx gsEx "hint" 1 0 []).final_decision =
      "alpha" ∧
    (dmEx.runDebate choiceLast extractNone agentsEx gsEx "hint" 1 0 []).final_decision =
      "end" ∧
    choiceHead ["alpha", "end"] ∈ (["alpha", "end"] : List String) ∧
    choiceLast ["alpha", "end"] ∈ (["alpha", "end"] : List String) :=
  ⟨rfl, rfl, rfl, rfl, by decide, by decide⟩

/-- C8 (amended): the tie-break draws from the module-global `random.choice`
(modelled by the `choice` argument), not from any Debate-Manager-local
source: the final decision is a function of the inputs and the global
choice function alone, any two managers with equal `max_rounds` behave
identically, and under a tie the decision is a member of the tied set. -/
theorem C8_tiebreak_global_random (dm : DebateManager) (choice : List String → String)
    (extractPref : String → GameState → Option String) (agents : List Agent)
    (gs : GameState) (clue : String) (number correct_guesses : Nat)
    (previous_guesses : List PyDict)
    (hchoice : ∀ l : List String, l ≠ [] → choice l ∈ l) :
    ((dm.runDebate choice extractPref agents gs clue number correct_guesses
        previous_guesses).final_decision =
      decideVote choice (mostCommon (counterOf ((votesDict agents
        (debateLog dm extractPref agents gs clue number correct_guesses previous_guesses)
        (votingOptions (debateLog dm extractPref agents gs clue number correct_guesses
          previous_guesses)) gs clue number).map fun p => p.2)))) ∧
    (∀ (t0 t1 : String × Nat) (rest : List (String × Nat)), t0.2 = t1.2 →
      decideVote choice (t0 :: t1 :: rest) ∈
        ((t0 :: t1 :: rest).filter fun p => p.2 = t0.2).map fun p => p.1) ∧
    (∀ dm2 : DebateManager, dm2.max_rounds = dm.max_rounds →
      dm2.runDebate choice extractPref agents gs clue number correct_guesses
          previous_guesses =
        dm.runDebate choice extractPref agents gs clue number correct_guesses
          previous_guesses) := by
  refine ⟨rfl, ?_, ?_⟩
  · intro t0 t1 rest h
    have ht0 : t0 ∈ (t0 :: t1 :: rest).filter fun p => p.2 = t0.2 := by
      apply List.mem_filter.mpr
      exact ⟨List.mem_cons_self _ _, by simp⟩
    have htied_ne :
        ((t0 :: t1 :: rest).filter fun p => p.2 = t0.2).map (fun p => p.1) ≠ [] :=
      List.ne_nil_of_mem (List.mem_map_of_mem (fun p => p.1) ht0)
    have hdv : decideVote choice (t0 :: t1 :: rest) =
        choice (((t0 :: t1 :: rest).filter fun p => p.2 = t0.2).map fun p => p.1) := by
      show (if t0.2 = t1.2 then
          choice (((t0 :: t1 :: rest).filter fun p => p.2 = t0.2).map fun p => p.1)
        else t0.1) = _
      rw [if_pos h]
    rw [hdv]
    exact hchoice _ htied_ne
  · intro dm2 h
    cases dm2 with
    | mk m2 =>
        cases dm with
        | mk m1 =>
            simp only at h
            rw [h]

/-- Witness for the amended C8: a concrete tie over two options. -/
theorem C8_witness :
    (dmEx.runDebate choiceHead extractNone agentsEx gsEx "hint" 1 0 []).final_decision =
      decideVote choiceHead (mostCommon (counterOf ((votesDict agentsEx
        (debateLog dmEx extractNone agentsEx gsEx "hint" 1 0 [])
        (votingOptions (debateLog dmEx extractNone agentsEx gsEx "hint" 1 0 []))
        gsEx "hint" 1).map fun p => p.2))) ∧
    decideVote choiceHead [("alpha", 1), ("end", 1)] ∈
      (([("alpha", 1), ("end", 1)] : List (String × Nat)).filter
        fun p => p.2 = 1).map fun p => p.1 :=
  have h := C8_tiebreak_global_random dmEx choiceHead extractNone agentsEx gsEx "hint"
    1 0 [] choiceHead_mem
  ⟨h.1, h.2.1 ("alpha", 1) ("end", 1) [] rfl⟩

end Debate
